import Mathlib

/-!
Shallow embedding of `src/src/macro/mesh.rs` (the `#[vertex_format]`
derivation engine): modifier resolution, type classification, count/type
decoding, layout expressions and the descriptor assembler, together with
theorems settling the frozen claims about this code.

Generated Rust expressions (the `quote_expr!` templates and `cx.expr_*`
constructions) are embedded as the inductive `GenExpr`; the compiler
diagnostic context (`cx.span_warn` / `cx.span_err`) is embedded as an
explicit list of diagnostics returned alongside each result.
-/

namespace GfxMesh

/-- Severity of a diagnostic emitted through the extension context:
`cx.span_warn` produces `Warning`, `cx.span_err` produces `Error`. -/
inductive Severity where
| Warning
| Error
deriving DecidableEq, Repr

/-- An emitted diagnostic: severity plus the formatted message. -/
structure Diagnostic where
  severity : Severity
  message : String
deriving DecidableEq, Repr

/-- Number of Error-level diagnostics in a list (the overall failure flag
of the spec is set iff this is nonzero). -/
def errCount (ds : List Diagnostic) : Nat :=
  ds.countP (fun d => d.severity == Severity.Error)

/-- Overall failure flag: true iff an Error-level diagnostic was emitted. -/
def failed (ds : List Diagnostic) : Bool :=
  ds.any (fun d => d.severity == Severity.Error)

/-- A component modifier (`enum Modifier` in mesh.rs). -/
inductive Modifier where
| Normalized
| AsFloat
| AsDouble
deriving DecidableEq, Repr

/-- The `fmt::Show` impl for `Modifier` in mesh.rs. -/
def Modifier.str : Modifier → String
  | .Normalized => "normalized"
  | .AsFloat => "as_float"
  | .AsDouble => "as_double"

/-- The `FromStr` impl for `Modifier` in mesh.rs. -/
def from_str (src : String) : Option Modifier :=
  match src with
  | "normalized" => some .Normalized
  | "as_float" => some .AsFloat
  | "as_double" => some .AsDouble
  | _ => none

/-- The `fmt::Show` rendering of an `Option<Modifier>` value, as used in the
incompatible-modifier warning messages (Rust prints `Some(normalized)`). -/
def showOptModifier : Option Modifier → String
  | none => "None"
  | some m => "Some(" ++ m.str ++ ")"

/-- A field attribute meta item (`ast::MetaItem`): a bare word, a list form
`name(items)`, or a name-value form `name = value`. -/
inductive MetaItem where
| MetaWord (word : String)
| MetaList (nm : String) (items : List MetaItem)
| MetaNameValue (nm : String) (value : String)

/-- Message of the extra-modifier warning in `find_modifier`. -/
def extraMsg (newModifier kept : Modifier) : String :=
  "Extra attribute modifier detected: `#[" ++ newModifier.str ++
    "]` - ignoring in favour of `#[" ++ kept.str ++ "]`."

/-- One step of the fold in `find_modifier` (mesh.rs lines 68-83): on a bare
word that parses as a modifier, `modifier.map_or(Some(new), |m| { warn; None })`
followed by `.or(modifier)`; any non-word meta item leaves the accumulator
unchanged. The accumulator carries the diagnostics side channel. -/
def find_modifier_step (acc : Option Modifier × List Diagnostic)
    (attrib : MetaItem) : Option Modifier × List Diagnostic :=
  match attrib with
  | .MetaWord word =>
    match from_str word with
    | some newModifier =>
      let inner : Option Modifier × List Diagnostic :=
        match acc.1 with
        | none => (some newModifier, acc.2)
        | some m => (none, acc.2 ++ [⟨.Warning, extraMsg newModifier m⟩])
      (inner.1.or acc.1, inner.2)
    | none => acc
  | _ => acc

/-- `find_modifier` (mesh.rs lines 66-85): fold over the field attributes
starting from `None`, returning the chosen modifier and the warnings. -/
def find_modifier (attributes : List MetaItem) :
    Option Modifier × List Diagnostic :=
  attributes.foldl find_modifier_step (none, [])

/-- The recognized modifier keywords among a field's bare-word attributes,
in order (the words `find_modifier` reacts to). -/
def recognizedWords : List MetaItem → List Modifier
  | [] => []
  | .MetaWord w :: rest =>
    match from_str w with
    | some m => m :: recognizedWords rest
    | none => recognizedWords rest
  | .MetaList _ _ :: rest => recognizedWords rest
  | .MetaNameValue _ _ :: rest => recognizedWords rest

/-- A generated Rust expression, embedding exactly the expression shapes this
macro builds: the nil literal `()` (the Poison marker used on failure), an
unsuffixed integer literal, the two `quote_expr!` attribute-type templates
`gfx::attrib::Float(gfx::attrib::$kind, gfx::attrib::$sub_type)` and
`gfx::attrib::Int(gfx::attrib::$kind, gfx::attrib::$sub_type,
gfx::attrib::$sign)` (captured by their interpolated identifiers), a
`std::mem::size_of::<T>()` call, and the cast / address-of / dereference /
field-access / unsafe-block formers used by `offset_expr` and
`stride_expr`. -/
inductive GenExpr where
| LitNil
| LitInt (n : Nat)
| FloatA (kind subType : String)
| IntA (kind subType sign : String)
| SizeOf (tyName : String)
| Cast (e : GenExpr) (ty : String)
| AddrOf (e : GenExpr)
| DerefE (e : GenExpr)
| FieldE (e : GenExpr) (fieldName : String)
| UnsafeBlock (e : GenExpr)
deriving DecidableEq, Repr

/-- Whether an expression (or any subexpression) dereferences a null base
address cast to a pointer type, i.e. contains `*(0 as *const T)`. -/
def mentionsNullDeref : GenExpr → Bool
  | .DerefE (.Cast (.LitInt 0) _) => true
  | .DerefE e => mentionsNullDeref e
  | .Cast e _ => mentionsNullDeref e
  | .AddrOf e => mentionsNullDeref e
  | .FieldE e _ => mentionsNullDeref e
  | .UnsafeBlock e => mentionsNullDeref e
  | _ => false

/-- The `slice_from(1)` of the Rust source: drop the first character of the
(ASCII) type name. -/
def slice_from1 (s : String) : String :=
  String.mk (s.data.drop 1)

/-- The `starts_with("i")` test of the Rust source. -/
def startsWithI (s : String) : Bool :=
  match s.data with
  | [] => false
  | c :: _ => c == 'i'

/-- The float type names of the first match arm of `decode_type`. -/
def floatTypeNames : List String := ["f32", "f64"]

/-- The integer type names of the second match arm of `decode_type`. -/
def intTypeNames : List String :=
  ["u8", "u16", "u32", "u64", "uint", "i8", "i16", "i32", "i64", "int"]

/-- Message of the incompatible-float-modifier warning in `decode_type`. -/
def incompatFloatMsg (modifier : Option Modifier) : String :=
  "Incompatible float modifier attribute: `#[" ++ showOptModifier modifier ++ "]`"

/-- Message of the incompatible-int-modifier warning in `decode_type`. -/
def incompatIntMsg (modifier : Option Modifier) : String :=
  "Incompatible int modifier attribute: `#[" ++ showOptModifier modifier ++ "]`"

/-- Message of the unrecognized-component-type error in `decode_type`. -/
def unrecognizedMsg (tyStr : String) : String :=
  "Unrecognized component type: `" ++ tyStr ++ "`"

/-- `decode_type` (mesh.rs lines 88-133): map a type identifier and an
optional modifier to the generated `gfx::attrib::Type` expression, plus
the diagnostics emitted along the way. Float arm: kind `FloatDefault` for
no modifier or `as_float`, `FloatPrecision` for `as_double`, empty kind
plus a warning for `normalized`; sub-type `F` ++ name without its first
character. Integer arm: sign from a leading `i`, kind `IntRaw` /
`IntNormalized` / `IntAsFloat`, empty kind plus a warning for `as_double`;
sub-type `U` ++ name without its first character. Any other name: an
error and the nil literal. -/
def decode_type (tyStr : String) (modifier : Option Modifier) :
    GenExpr × List Diagnostic :=
  if tyStr ∈ floatTypeNames then
    let kindD : String × List Diagnostic :=
      match modifier with
      | none => ("FloatDefault", [])
      | some .AsFloat => ("FloatDefault", [])
      | some .AsDouble => ("FloatPrecision", [])
      | some .Normalized => ("", [⟨.Warning, incompatFloatMsg modifier⟩])
    (.FloatA kindD.1 ("F" ++ slice_from1 tyStr), kindD.2)
  else if tyStr ∈ intTypeNames then
    let sign : String := if startsWithI tyStr then "Signed" else "Unsigned"
    let kindD : String × List Diagnostic :=
      match modifier with
      | none => ("IntRaw", [])
      | some .Normalized => ("IntNormalized", [])
      | some .AsFloat => ("IntAsFloat", [])
      | some .AsDouble => ("", [⟨.Warning, incompatIntMsg modifier⟩])
    (.IntA kindD.1 ("U" ++ slice_from1 tyStr) sign, kindD.2)
  else
    (.LitNil, [⟨.Error, unrecognizedMsg tyStr⟩])

/-- A field type (`ast::Ty`), as far as `decode_count_and_type` inspects it:
a path (whose first segment identifier is all that is ever consulted), a
fixed-length vector with an element type and a verbatim length expression,
or any other type form (rendered only into error messages). -/
inductive Ty where
| TyPath (seg0 : String) (restSegs : List String)
| TyFixedLengthVec (elem : Ty) (len : GenExpr)
| TyOther (desc : String)

/-- Rendering of a type into diagnostic messages (the `{}` formatting of
`ty.node` in the Rust source). -/
def tyDesc : Ty → String
  | .TyPath seg0 restSegs => String.intercalate "::" (seg0 :: restSegs)
  | .TyFixedLengthVec e _ => "[" ++ tyDesc e ++ ", ..]"
  | .TyOther d => d

/-- A struct field (`ast::StructField`), as far as the macro inspects it:
its attribute meta items and its declared type. -/
structure StructField where
  attrs : List MetaItem
  ty : Ty

/-- Message of the unsupported-fixed-vector-sub-type error. -/
def unsupportedSubMsg (t : Ty) : String :=
  "Unsupported fixed vector sub-type: `" ++ tyDesc t ++ "`"

/-- Message of the unsupported-attribute-type error. -/
def unsupportedMsg (t : Ty) : String :=
  "Unsupported attribute type: `" ++ tyDesc t ++ "`"

/-- `decode_count_and_type` (mesh.rs lines 135-159): resolve the field's
modifier, then produce the element-count expression and element-type
expression. A path type gives count 1 and classifies its first segment; a
fixed-length vector returns its length expression verbatim as the count and
classifies the element path's first segment, or errors with the nil literal
when the element is not a path; any other type errors with nil for both. -/
def decode_count_and_type (field : StructField) :
    (GenExpr × GenExpr) × List Diagnostic :=
  let md := find_modifier field.attrs
  match field.ty with
  | .TyPath seg0 _ =>
    let dt := decode_type seg0 md.1
    ((.LitInt 1, dt.1), md.2 ++ dt.2)
  | .TyFixedLengthVec pty lenExpr =>
    match pty with
    | .TyPath seg0 _ =>
      let dt := decode_type seg0 md.1
      ((lenExpr, dt.1), md.2 ++ dt.2)
    | _ =>
      ((lenExpr, .LitNil), md.2 ++ [⟨.Error, unsupportedSubMsg pty⟩])
  | _ =>
    ((.LitNil, .LitNil), md.2 ++ [⟨.Error, unsupportedMsg field.ty⟩])

/-- `offset_expr` (mesh.rs lines 161-166): the generated expression
`unsafe { &(*(0u as *const Struct)).field as *const _ as gfx::attrib::Offset }`. -/
def offset_expr (struct_ident field_ident : String) : GenExpr :=
  .UnsafeBlock (.Cast (.Cast (.AddrOf (.FieldE
    (.DerefE (.Cast (.LitInt 0) ("*const " ++ struct_ident)))
    field_ident)) "*const _") "gfx::attrib::Offset")

/-- `stride_expr` (mesh.rs lines 168-170): the generated expression
`std::mem::size_of::<Struct>() as gfx::attrib::Stride`. -/
def stride_expr (struct_ident : String) : GenExpr :=
  .Cast (.SizeOf struct_ident) "gfx::attrib::Stride"

/-- One generated `gfx::Attribute { .. }` struct literal, with the field
name captured as the string produced by `token::get_ident(ident)`. -/
structure Attribute where
  buffer : GenExpr
  elem_count : GenExpr
  elem_type : GenExpr
  offsetE : GenExpr
  strideE : GenExpr
  nm : String
deriving DecidableEq, Repr

/-- The `Named` versus unnamed (`Unnamed`) distinction of
`generic::StaticFields`: `Named` carries the field identifiers. -/
inductive StaticFields where
| Named (idents : List String)
| Unnamed (count : Nat)

/-- The shapes of `generic::SubstructureFields` the macro distinguishes: a
static struct (with its field definitions and its named/unnamed fields),
or the enum-related shapes which all fall into the catch-all arm. -/
inductive SubstructureFields where
| StaticStruct (defns : List StructField) (flds : StaticFields)
| StaticEnum
| EnumMatching

/-- The per-field loop of `method_body` (mesh.rs lines 185-210): for each
(definition, identifier) pair push one `gfx::Attribute` struct literal,
carrying the count and type from `decode_count_and_type`, the field's
offset expression, and the shared stride expression, and collect the
diagnostics in order. -/
def assemble (type_ident : String) (buffer ex_stride : GenExpr) :
    List (StructField × String) → List Attribute × List Diagnostic
  | [] => ([], [])
  | (df, ident) :: rest =>
    let cd := decode_count_and_type df
    let ex_offset := offset_expr type_ident ident
    let a : Attribute :=
      ⟨buffer, cd.1.1, cd.1.2, ex_offset, ex_stride, ident⟩
    let r := assemble type_ident buffer ex_stride rest
    (a :: r.1, cd.2 ++ r.2)

/-- `method_body` (mesh.rs lines 173-223): on a static struct with named
fields, compute the stride expression once and assemble one descriptor per
(definition, identifier) pair of the zipped field lists; on anything else,
emit a single error and yield no descriptors (the source returns the nil
literal as the whole body). -/
def method_body (type_ident : String) (buffer : GenExpr)
    (substr : SubstructureFields) : List Attribute × List Diagnostic :=
  match substr with
  | .StaticStruct defns (.Named flds) =>
    let ex_stride := stride_expr type_ident
    assemble type_ident buffer ex_stride (defns.zip flds)
  | _ =>
    ([], [⟨.Error, "Unable to implement `generate()` on a non-structure"⟩])

/-- A component width per the spec: a fixed bit width or the
platform-native width. -/
inductive SpecWidth where
| fixedW (bits : Nat)
| native
deriving DecidableEq, Repr

/-- Modelled from the spec: the integer sub-type identifiers declared by the
external `gfx::attrib` module (which is code of this repository not under
src/) and the width each denotes — widths 8/16/32/64 plus the
platform-native width (`Uint`), per the spec's recognized integer family.
Any other identifier names no integer sub-type. -/
def intSubTypeWidth : String → Option SpecWidth
  | "U8" => some (.fixedW 8)
  | "U16" => some (.fixedW 16)
  | "U32" => some (.fixedW 32)
  | "U64" => some (.fixedW 64)
  | "Uint" => some .native
  | _ => none

/-- Modelled from the spec: the float sub-type identifiers declared by the
external `gfx::attrib` module (code of this repository not under src/) and
the width each denotes — the spec's two float widths. -/
def floatSubTypeWidth : String → Option SpecWidth
  | "F32" => some (.fixedW 32)
  | "F64" => some (.fixedW 64)
  | _ => none

/-- Evaluation of a generated layout expression against a host size-of
function (the meaning of `std::mem::size_of::<T>()`, with casts to the
integral `Stride` type transparent): used to state that the stride
expression denotes the record's total byte size. -/
def evalSize (sizeOfFn : String → Nat) : GenExpr → Option Nat
  | .SizeOf t => some (sizeOfFn t)
  | .Cast e _ => evalSize sizeOfFn e
  | .LitInt n => some n
  | _ => none

/-- Folding `find_modifier_step` from an already-chosen modifier keeps that
modifier and appends one warning per further recognized bare-word keyword. -/
theorem foldl_step_some (attrs : List MetaItem) (m : Modifier)
    (ds : List Diagnostic) :
    attrs.foldl find_modifier_step (some m, ds) =
      (some m, ds ++ (recognizedWords attrs).map
        (fun n => ⟨.Warning, extraMsg n m⟩)) := by
  induction attrs generalizing ds with
  | nil => simp [recognizedWords]
  | cons a rest ih =>
    cases a with
    | MetaWord w =>
      cases h : from_str w with
      | none =>
        simp only [List.foldl, find_modifier_step, h, recognizedWords]
        rw [ih]
      | some n =>
        simp only [List.foldl, find_modifier_step, h, recognizedWords,
          Option.or]
        rw [ih]
        simp
    | MetaList nm items =>
      simp only [List.foldl, find_modifier_step, recognizedWords]
      rw [ih]
    | MetaNameValue nm v =>
      simp only [List.foldl, find_modifier_step, recognizedWords]
      rw [ih]

/-- Folding `find_modifier_step` from no chosen modifier selects the first
recognized bare-word keyword and appends one warning, naming the new and
the kept modifier, per further recognized keyword. -/
theorem foldl_step_none (attrs : List MetaItem) (ds : List Diagnostic) :
    attrs.foldl find_modifier_step (none, ds) =
      match recognizedWords attrs with
      | [] => (none, ds)
      | m0 :: rest =>
        (some m0, ds ++ rest.map (fun n => ⟨.Warning, extraMsg n m0⟩)) := by
  induction attrs generalizing ds with
  | nil => simp [recognizedWords]
  | cons a rest ih =>
    cases a with
    | MetaWord w =>
      cases h : from_str w with
      | none =>
        simp only [List.foldl, find_modifier_step, h, recognizedWords]
        rw [ih]
      | some n =>
        simp only [List.foldl, find_modifier_step, h, recognizedWords,
          Option.or]
        rw [foldl_step_some]
    | MetaList nm items =>
      simp only [List.foldl, find_modifier_step, recognizedWords]
      rw [ih]
    | MetaNameValue nm v =>
      simp only [List.foldl, find_modifier_step, recognizedWords]
      rw [ih]

/-- Characterization of `find_modifier`: the result is the first recognized
bare-word modifier keyword (keep-first), and there is exactly one warning
for each later recognized keyword, each naming the discarded keyword and
the kept first one. -/
theorem find_modifier_char (attrs : List MetaItem) :
    find_modifier attrs =
      match recognizedWords attrs with
      | [] => (none, [])
      | m0 :: rest =>
        (some m0, rest.map (fun n => ⟨.Warning, extraMsg n m0⟩)) := by
  have h := foldl_step_none attrs []
  simp only [List.nil_append] at h
  exact h

/-- Every diagnostic emitted by `find_modifier` is a warning: its error
count is zero. -/
theorem find_modifier_no_errors (attrs : List MetaItem) :
    errCount (find_modifier attrs).2 = 0 := by
  rw [find_modifier_char]
  cases recognizedWords attrs with
  | nil => rfl
  | cons m0 rest =>
    simp only [errCount, List.countP_map]
    apply List.countP_eq_zero.mpr
    intro n _
    simp

/-- The descriptors produced by `assemble` carry the field identifiers, in
order, as their names. -/
theorem assemble_map_name (t : String) (b st : GenExpr)
    (l : List (StructField × String)) :
    ((assemble t b st l).1.map (fun a => a.nm)) = l.map Prod.snd := by
  induction l with
  | nil => rfl
  | cons p rest ih =>
    simp only [assemble, List.map]
    rw [ih]

/-- `assemble` produces exactly one descriptor per input pair. -/
theorem assemble_length (t : String) (b st : GenExpr)
    (l : List (StructField × String)) :
    (assemble t b st l).1.length = l.length := by
  have h := congrArg List.length (assemble_map_name t b st l)
  simpa using h

/-- Every descriptor produced by `assemble` carries the given stride
expression. -/
theorem assemble_stride (t : String) (b st : GenExpr)
    (l : List (StructField × String)) :
    ∀ a ∈ (assemble t b st l).1, a.strideE = st := by
  induction l with
  | nil => intro a ha; cases ha
  | cons p rest ih =>
    intro a ha
    simp only [assemble, List.mem_cons] at ha
    cases ha with
    | inl h => rw [h]
    | inr h => exact ih a h

/-- Every descriptor produced by `assemble` carries the offset expression
generated by `offset_expr` for its own field name. -/
theorem assemble_offset (t : String) (b st : GenExpr)
    (l : List (StructField × String)) :
    ∀ a ∈ (assemble t b st l).1, a.offsetE = offset_expr t a.nm := by
  induction l with
  | nil => intro a ha; cases ha
  | cons p rest ih =>
    intro a ha
    simp only [assemble, List.mem_cons] at ha
    cases ha with
    | inl h => rw [h]
    | inr h => exact ih a h

/-- C1 counterexample: on a field with both `normalized` and `as_float`
bare-word keywords, `find_modifier` emits exactly one Warning naming both
modifiers, but its result is `some Normalized` — the first keyword — not
`none` as the claim states. -/
theorem find_modifier_conflict_cex :
    find_modifier [.MetaWord "normalized", .MetaWord "as_float"] =
      (some .Normalized,
        [⟨.Warning, "Extra attribute modifier detected: `#[as_float]` - ignoring in favour of `#[normalized]`."⟩]) ∧
    (find_modifier [.MetaWord "normalized", .MetaWord "as_float"]).1 ≠ none := by
  decide

/-- C1 (amended): for every field whose bare-word annotations contain two or
more recognized modifier keywords, the Modifier Resolver emits one Warning
per extra keyword, each naming the discarded and the previously kept
modifier, and its result is the FIRST recognized modifier (keep-first), so
the field's classification is computed with the first modifier present. -/
theorem find_modifier_conflict_keeps_first (attrs : List MetaItem)
    (m0 : Modifier) (rest : List Modifier)
    (h : recognizedWords attrs = m0 :: rest) (hr : rest ≠ []) :
    (find_modifier attrs).1 = some m0 ∧
    (find_modifier attrs).2 =
      rest.map (fun n => ⟨.Warning, extraMsg n m0⟩) ∧
    (find_modifier attrs).2 ≠ [] := by
  have hc := find_modifier_char attrs
  rw [h] at hc
  refine ⟨by rw [hc], by rw [hc], ?_⟩
  rw [hc]
  simpa using hr

/-- C1 witness: the keep-first conflict resolution at a concrete field
carrying `normalized` then `as_float`. -/
theorem find_modifier_conflict_keeps_first_w :
    (find_modifier [.MetaWord "normalized", .MetaWord "as_float"]).1 =
      some .Normalized ∧
    (find_modifier [.MetaWord "normalized", .MetaWord "as_float"]).2 =
      [Modifier.AsFloat].map
        (fun n => ⟨.Warning, extraMsg n .Normalized⟩) ∧
    (find_modifier [.MetaWord "normalized", .MetaWord "as_float"]).2 ≠ [] :=
  find_modifier_conflict_keeps_first
    [.MetaWord "normalized", .MetaWord "as_float"]
    .Normalized [.AsFloat] (by decide) (by decide)

/-- C2 counterexample: for an `f32` field with the `normalized` modifier the
classifier emits a Warning (zero Error-level diagnostics) and returns
`gfx::attrib::Float` with an empty kind identifier — not the Poison nil
marker — refuting the claimed Error diagnostic and Poison type. -/
theorem decode_type_incompatible_cex :
    decode_type "f32" (some .Normalized) =
      (.FloatA "" "F32",
        [⟨.Warning, "Incompatible float modifier attribute: `#[Some(normalized)]`"⟩]) ∧
    errCount (decode_type "f32" (some .Normalized)).2 = 0 ∧
    (decode_type "f32" (some .Normalized)).1 ≠ .LitNil := by
  decide

/-- C2 (amended): for every field whose resolved modifier is incompatible
with its type family (Normalized on a float type, AsDouble on an integer
type), the Type Classifier emits exactly one WARNING-level diagnostic and
returns the family's constructor with an EMPTY kind identifier (not the
Poison nil marker); processing continues. -/
theorem decode_type_incompatible_amended :
    (∀ t, t ∈ floatTypeNames → decode_type t (some .Normalized) =
      (.FloatA "" ("F" ++ slice_from1 t),
        [⟨.Warning, incompatFloatMsg (some .Normalized)⟩])) ∧
    (∀ t, t ∈ intTypeNames → decode_type t (some .AsDouble) =
      (.IntA "" ("U" ++ slice_from1 t)
          (if startsWithI t then "Signed" else "Unsigned"),
        [⟨.Warning, incompatIntMsg (some .AsDouble)⟩])) := by
  constructor
  · intro t ht
    simp [decode_type, ht]
  · intro t ht
    have hf : t ∉ floatTypeNames := by
      fin_cases ht <;> decide
    simp [decode_type, ht, hf]

/-- C2 witness: the incompatible-modifier behaviour at the concrete fields
`f32` with `normalized` and `u8` with `as_double`. -/
theorem decode_type_incompatible_amended_w :
    decode_type "f32" (some .Normalized) =
      (.FloatA "" ("F" ++ slice_from1 "f32"),
        [⟨.Warning, incompatFloatMsg (some .Normalized)⟩]) ∧
    decode_type "u8" (some .AsDouble) =
      (.IntA "" ("U" ++ slice_from1 "u8")
          (if startsWithI "u8" then "Signed" else "Unsigned"),
        [⟨.Warning, incompatIntMsg (some .AsDouble)⟩]) :=
  ⟨decode_type_incompatible_amended.1 "f32" (by decide),
   decode_type_incompatible_amended.2 "u8" (by decide)⟩

/-- C3 counterexample: at the concrete record `Vertex` and field `pos`, the
generated offset expression is
`unsafe { &(*(0u as *const Vertex)).pos as *const _ as gfx::attrib::Offset }`,
which dereferences a null base address cast to the record type — it is not
a safe offset-of-member facility, refuting the claim. -/
theorem offset_expr_null_deref_cex :
    offset_expr "Vertex" "pos" =
      .UnsafeBlock (.Cast (.Cast (.AddrOf (.FieldE
        (.DerefE (.Cast (.LitInt 0) "*const Vertex")) "pos")) "*const _")
        "gfx::attrib::Offset") ∧
    mentionsNullDeref (offset_expr "Vertex" "pos") = true := by
  decide

/-- C3 (amended): for every field, the byte offset placed in its descriptor
is obtained by pointer arithmetic that dereferences a null (`0`) base
address cast to the record type inside an `unsafe` block — not via a safe
offset-of-member facility. -/
theorem offset_expr_uses_null_base (s f t : String) (b : GenExpr)
    (defns : List StructField) (flds : List String) (a : Attribute)
    (ha : a ∈ (method_body t b (.StaticStruct defns (.Named flds))).1) :
    offset_expr s f =
      .UnsafeBlock (.Cast (.Cast (.AddrOf (.FieldE
        (.DerefE (.Cast (.LitInt 0) ("*const " ++ s))) f)) "*const _")
        "gfx::attrib::Offset") ∧
    mentionsNullDeref (offset_expr s f) = true ∧
    a.offsetE = offset_expr t a.nm ∧
    mentionsNullDeref a.offsetE = true := by
  have ho := assemble_offset t b (stride_expr t) (defns.zip flds) a ha
  refine ⟨rfl, rfl, ho, ?_⟩
  rw [ho]
  rfl

/-- C3 witness: the null-base offset derivation at a concrete one-field
record. -/
theorem offset_expr_uses_null_base_w :
    offset_expr "Vertex" "pos" =
      .UnsafeBlock (.Cast (.Cast (.AddrOf (.FieldE
        (.DerefE (.Cast (.LitInt 0) ("*const " ++ "Vertex"))) "pos"))
        "*const _") "gfx::attrib::Offset") ∧
    mentionsNullDeref (offset_expr "Vertex" "pos") = true ∧
    (Attribute.mk .LitNil (.LitInt 1) (.FloatA "FloatDefault" "F32")
      (offset_expr "Vertex" "pos") (stride_expr "Vertex") "pos").offsetE =
      offset_expr "Vertex"
        (Attribute.mk .LitNil (.LitInt 1) (.FloatA "FloatDefault" "F32")
          (offset_expr "Vertex" "pos") (stride_expr "Vertex") "pos").nm ∧
    mentionsNullDeref
      (Attribute.mk .LitNil (.LitInt 1) (.FloatA "FloatDefault" "F32")
        (offset_expr "Vertex" "pos") (stride_expr "Vertex") "pos").offsetE
      = true :=
  offset_expr_uses_null_base "Vertex" "pos" "Vertex" .LitNil
    [⟨[], .TyPath "f32" []⟩] ["pos"]
    (Attribute.mk .LitNil (.LitInt 1) (.FloatA "FloatDefault" "F32")
      (offset_expr "Vertex" "pos") (stride_expr "Vertex") "pos")
    (by decide)

/-- C4: for every input that is not a static struct with named fields, the
derivation emits exactly one Error diagnostic, returns an empty descriptor
list, and sets the overall failure flag; and this is the only
invocation-fatal condition — on a struct with named fields one descriptor
is produced per zipped field regardless of any field-scoped failures. -/
theorem method_body_non_struct_fatal (t : String) (b : GenExpr)
    (substr : SubstructureFields)
    (h : ∀ defns flds, substr ≠ .StaticStruct defns (.Named flds)) :
    method_body t b substr =
      ([], [⟨.Error, "Unable to implement `generate()` on a non-structure"⟩]) ∧
    errCount (method_body t b substr).2 = 1 ∧
    failed (method_body t b substr).2 = true ∧
    ∀ defns flds,
      ((method_body t b (.StaticStruct defns (.Named flds))).1).length =
        (defns.zip flds).length := by
  have hm : method_body t b substr =
      ([], [⟨.Error, "Unable to implement `generate()` on a non-structure"⟩]) := by
    cases substr with
    | StaticStruct defns sf =>
      cases sf with
      | Named flds => exact absurd rfl (h defns flds)
      | Unnamed n => rfl
    | StaticEnum => rfl
    | EnumMatching => rfl
  refine ⟨hm, by rw [hm]; rfl, by rw [hm]; rfl, ?_⟩
  intro defns flds
  exact assemble_length t b (stride_expr t) (defns.zip flds)

/-- C4 witness: the fatal non-record branch at a concrete enum input, and
the non-fatal struct branch at a concrete one-field struct whose field is
type-poisoned. -/
theorem method_body_non_struct_fatal_w :
    method_body "V" .LitNil .StaticEnum =
      ([], [⟨.Error, "Unable to implement `generate()` on a non-structure"⟩]) ∧
    errCount (method_body "V" .LitNil .StaticEnum).2 = 1 ∧
    failed (method_body "V" .LitNil .StaticEnum).2 = true ∧
    ((method_body "V" .LitNil
        (.StaticStruct [⟨[], .TyOther "Bar"⟩] (.Named ["a"]))).1).length =
      (([⟨[], .TyOther "Bar"⟩] : List StructField).zip ["a"]).length :=
  have h := method_body_non_struct_fatal "V" .LitNil .StaticEnum
    (fun _ _ hh => SubstructureFields.noConfusion hh)
  ⟨h.1, h.2.1, h.2.2.1, h.2.2.2 [⟨[], .TyOther "Bar"⟩] ["a"]⟩

/-- C5: for every record schema with N named fields, derivation returns
exactly N descriptors carrying the field names in declaration order, so a
field-scoped failure for one field never prevents a descriptor from being
produced for any subsequent field. -/
theorem method_body_descriptor_per_field (t : String) (b : GenExpr)
    (defns : List StructField) (flds : List String)
    (h : defns.length = flds.length) :
    ((method_body t b (.StaticStruct defns (.Named flds))).1.map
        (fun a => a.nm)) = flds ∧
    ((method_body t b (.StaticStruct defns (.Named flds))).1).length =
      flds.length := by
  have h1 := assemble_map_name t b (stride_expr t) (defns.zip flds)
  have h2 : (defns.zip flds).map Prod.snd = flds :=
    List.map_snd_zip defns flds (Nat.le_of_eq h.symm)
  constructor
  · exact h1.trans h2
  · have := congrArg List.length (h1.trans h2)
    simpa using this

/-- C5 witness: a concrete three-field schema whose middle field has an
unsupported shape and whose last field has an unrecognized type still
yields three descriptors named in declaration order. -/
theorem method_body_descriptor_per_field_w :
    ((method_body "V" .LitNil (.StaticStruct
        [⟨[], .TyPath "f32" []⟩, ⟨[], .TyOther "Bar"⟩,
         ⟨[], .TyPath "bogus" []⟩]
        (.Named ["a", "b", "c"]))).1.map (fun a => a.nm)) = ["a", "b", "c"] ∧
    ((method_body "V" .LitNil (.StaticStruct
        [⟨[], .TyPath "f32" []⟩, ⟨[], .TyOther "Bar"⟩,
         ⟨[], .TyPath "bogus" []⟩]
        (.Named ["a", "b", "c"]))).1).length =
      (["a", "b", "c"] : List String).length :=
  method_body_descriptor_per_field "V" .LitNil
    [⟨[], .TyPath "f32" []⟩, ⟨[], .TyOther "Bar"⟩, ⟨[], .TyPath "bogus" []⟩]
    ["a", "b", "c"] rfl

/-- C6: the stride expression is computed once per derivation call and
every descriptor carries that identical expression — any two descriptors
from one call agree — and it is the `size_of` of the record type cast to
the stride type, which denotes the record's total byte size under any host
size-of function. -/
theorem method_body_stride_shared (sizeOfFn : String → Nat) (t : String)
    (b : GenExpr) (defns : List StructField) (flds : List String)
    (a a2 : Attribute)
    (ha : a ∈ (method_body t b (.StaticStruct defns (.Named flds))).1)
    (ha2 : a2 ∈ (method_body t b (.StaticStruct defns (.Named flds))).1) :
    a.strideE = a2.strideE ∧
    a.strideE = stride_expr t ∧
    stride_expr t = .Cast (.SizeOf t) "gfx::attrib::Stride" ∧
    evalSize sizeOfFn a.strideE = some (sizeOfFn t) := by
  have h1 := assemble_stride t b (stride_expr t) (defns.zip flds) a ha
  have h2 := assemble_stride t b (stride_expr t) (defns.zip flds) a2 ha2
  refine ⟨h1.trans h2.symm, h1, rfl, ?_⟩
  rw [h1]
  rfl

/-- C6 witness: the shared stride at two distinct descriptors of a concrete
two-field record, with a concrete host size function. -/
theorem method_body_stride_shared_w :
    (Attribute.mk .LitNil (.LitInt 1) (.FloatA "FloatDefault" "F32")
        (offset_expr "V" "a") (stride_expr "V") "a").strideE =
      (Attribute.mk .LitNil (.LitInt 1) (.IntA "IntRaw" "U8" "Unsigned")
        (offset_expr "V" "b") (stride_expr "V") "b").strideE ∧
    (Attribute.mk .LitNil (.LitInt 1) (.FloatA "FloatDefault" "F32")
        (offset_expr "V" "a") (stride_expr "V") "a").strideE =
      stride_expr "V" ∧
    stride_expr "V" = .Cast (.SizeOf "V") "gfx::attrib::Stride" ∧
    evalSize (fun _ => 8)
      (Attribute.mk .LitNil (.LitInt 1) (.FloatA "FloatDefault" "F32")
        (offset_expr "V" "a") (stride_expr "V") "a").strideE =
      some ((fun _ => 8) "V") :=
  method_body_stride_shared (fun _ => 8) "V" .LitNil
    [⟨[], .TyPath "f32" []⟩, ⟨[], .TyPath "u8" []⟩] ["a", "b"]
    (Attribute.mk .LitNil (.LitInt 1) (.FloatA "FloatDefault" "F32")
      (offset_expr "V" "a") (stride_expr "V") "a")
    (Attribute.mk .LitNil (.LitInt 1) (.IntA "IntRaw" "U8" "Unsigned")
      (offset_expr "V" "b") (stride_expr "V") "b")
    (by decide) (by decide)

/-- C7: for the platform-native signed name `int` the classifier builds the
sub-type identifier `U` ++ `nt` = `Unt`, which names no recognized
integer sub-type/width of the `gfx::attrib` module (modelled from the
spec), while every other recognized integer name maps to a width-carrying
sub-type; the spec's concrete examples (`i16` normalized, `f32` as_double)
hold with zero diagnostics. -/
theorem decode_type_int_subtype_bug :
    decode_type "int" none = (.IntA "IntRaw" "Unt" "Signed", []) ∧
    intSubTypeWidth "Unt" = none ∧
    intSubTypeWidth "Uint" = some .native ∧
    decode_type "i16" (some .Normalized) =
      (.IntA "IntNormalized" "U16" "Signed", []) ∧
    intSubTypeWidth "U16" = some (.fixedW 16) ∧
    decode_type "f32" (some .AsDouble) =
      (.FloatA "FloatPrecision" "F32", []) ∧
    floatSubTypeWidth "F32" = some (.fixedW 32) ∧
    ((intTypeNames.filter (fun t => t != "int")).all
      (fun t => (intSubTypeWidth ("U" ++ slice_from1 t)).isSome)) = true ∧
    ((floatTypeNames.all
      (fun t => (floatSubTypeWidth ("F" ++ slice_from1 t)).isSome)) = true) := by
  decide

/-- C8 counterexample: a field declared as a fixed array of a fixed array
(neither scalar nor fixed array of scalar) gets the error
`Unsupported fixed vector sub-type`, its type is the Poison nil marker,
but its COUNT is the array length `3`, not the Poison marker — refuting
the claim that both count and type are set to Poison for every such
shape. -/
theorem decode_count_nested_vec_cex :
    decode_count_and_type ⟨[], .TyFixedLengthVec
        (.TyFixedLengthVec (.TyPath "f32" []) (.LitInt 2)) (.LitInt 3)⟩ =
      ((.LitInt 3, .LitNil),
        [⟨.Error, "Unsupported fixed vector sub-type: `[f32, ..]`"⟩]) ∧
    (decode_count_and_type ⟨[], .TyFixedLengthVec
        (.TyFixedLengthVec (.TyPath "f32" []) (.LitInt 2)) (.LitInt 3)⟩).1.1
      ≠ .LitNil := by
  decide

/-- C8 (amended): a scalar (path) shape yields count 1 and the classifier's
type; a fixed array of scalar yields its length expression as count and the
classifier's type; a fixed array whose element is NOT a scalar path yields
exactly one Error, the Poison nil type, but keeps the array length as the
count; only a shape that is not a path and not a fixed array yields exactly
one Error with BOTH count and type set to the Poison nil marker. -/
theorem decode_count_and_type_amended :
    (∀ attrs s r, decode_count_and_type ⟨attrs, .TyPath s r⟩ =
      ((.LitInt 1, (decode_type s (find_modifier attrs).1).1),
        (find_modifier attrs).2 ++ (decode_type s (find_modifier attrs).1).2)) ∧
    (∀ attrs s r n,
      (decode_count_and_type ⟨attrs, .TyFixedLengthVec (.TyPath s r) n⟩).1 =
        (n, (decode_type s (find_modifier attrs).1).1)) ∧
    (∀ attrs e m n,
      (decode_count_and_type
          ⟨attrs, .TyFixedLengthVec (.TyFixedLengthVec e m) n⟩).1 =
        (n, .LitNil) ∧
      errCount (decode_count_and_type
          ⟨attrs, .TyFixedLengthVec (.TyFixedLengthVec e m) n⟩).2 = 1) ∧
    (∀ attrs d n,
      (decode_count_and_type ⟨attrs, .TyFixedLengthVec (.TyOther d) n⟩).1 =
        (n, .LitNil) ∧
      errCount (decode_count_and_type
          ⟨attrs, .TyFixedLengthVec (.TyOther d) n⟩).2 = 1) ∧
    (∀ attrs d,
      (decode_count_and_type ⟨attrs, .TyOther d⟩).1 = (.LitNil, .LitNil) ∧
      errCount (decode_count_and_type ⟨attrs, .TyOther d⟩).2 = 1) := by
  refine ⟨fun attrs s r => rfl, fun attrs s r n => rfl, ?_, ?_, ?_⟩
  · intro attrs e m n
    refine ⟨rfl, ?_⟩
    simp only [decode_count_and_type, errCount, List.countP_append]
    have h := find_modifier_no_errors attrs
    simp only [errCount] at h
    rw [h]
    rfl
  · intro attrs d n
    refine ⟨rfl, ?_⟩
    simp only [decode_count_and_type, errCount, List.countP_append]
    have h := find_modifier_no_errors attrs
    simp only [errCount] at h
    rw [h]
    rfl
  · intro attrs d
    refine ⟨rfl, ?_⟩
    simp only [decode_count_and_type, errCount, List.countP_append]
    have h := find_modifier_no_errors attrs
    simp only [errCount] at h
    rw [h]
    rfl

/-- C9: for every field whose scalar type name is not in the recognized
table, the Type Classifier emits exactly one Error diagnostic with the
`Unrecognized component type` message and the Poison nil marker as the
type, and the assembler still produces one descriptor per field of the
schema, so processing of subsequent fields continues. -/
theorem decode_type_unrecognized_poison (tyStr : String)
    (h : tyStr ∉ floatTypeNames ++ intTypeNames) (modifier : Option Modifier)
    (t : String) (b : GenExpr) (defns : List StructField)
    (flds : List String) :
    decode_type tyStr modifier = (.LitNil, [⟨.Error, unrecognizedMsg tyStr⟩]) ∧
    errCount (decode_type tyStr modifier).2 = 1 ∧
    ((method_body t b (.StaticStruct defns (.Named flds))).1).length =
      (defns.zip flds).length := by
  have hf : tyStr ∉ floatTypeNames :=
    fun hh => h (List.mem_append.mpr (Or.inl hh))
  have hi : tyStr ∉ intTypeNames :=
    fun hh => h (List.mem_append.mpr (Or.inr hh))
  have hd : decode_type tyStr modifier =
      (.LitNil, [⟨.Error, unrecognizedMsg tyStr⟩]) := by
    simp [decode_type, hf, hi]
  exact ⟨hd, by rw [hd]; rfl,
    assemble_length t b (stride_expr t) (defns.zip flds)⟩

/-- C9 witness: the unrecognized name `bool` on a field of a concrete
two-field schema whose second field still gets a descriptor. -/
theorem decode_type_unrecognized_poison_w :
    decode_type "bool" none = (.LitNil, [⟨.Error, unrecognizedMsg "bool"⟩]) ∧
    errCount (decode_type "bool" none).2 = 1 ∧
    ((method_body "V" .LitNil (.StaticStruct
        [⟨[], .TyPath "bool" []⟩, ⟨[], .TyPath "f32" []⟩]
        (.Named ["a", "b"]))).1).length =
      (([⟨[], .TyPath "bool" []⟩, ⟨[], .TyPath "f32" []⟩] :
          List StructField).zip ["a", "b"]).length :=
  decode_type_unrecognized_poison "bool" (by decide) none "V" .LitNil
    [⟨[], .TyPath "bool" []⟩, ⟨[], .TyPath "f32" []⟩] ["a", "b"]

/-- C10: the Decoder consults only the first segment of a (possibly
qualified) type path — the trailing segments never change the result, and
a qualified path such as `mymod::f32` is classified by `mymod` (Poison nil
here), not by its final name `f32` (which alone would classify as a
float); and the Modifier Resolver reacts only to bare-word annotations — a
recognized keyword in list or name-value form is ignored. -/
theorem first_segment_and_bare_words_only :
    (∀ attrs s r, decode_count_and_type ⟨attrs, .TyPath s r⟩ =
      decode_count_and_type ⟨attrs, .TyPath s []⟩) ∧
    (∀ attrs s r n,
      decode_count_and_type ⟨attrs, .TyFixedLengthVec (.TyPath s r) n⟩ =
        decode_count_and_type ⟨attrs, .TyFixedLengthVec (.TyPath s []) n⟩) ∧
    (decode_count_and_type ⟨[], .TyPath "mymod" ["f32"]⟩).1.2 = .LitNil ∧
    (decode_type "f32" none).1 ≠ .LitNil ∧
    (∀ nm items attrs,
      find_modifier (.MetaList nm items :: attrs) = find_modifier attrs) ∧
    (∀ nm v attrs,
      find_modifier (.MetaNameValue nm v :: attrs) = find_modifier attrs) ∧
    (find_modifier
      [.MetaList "normalized" [], .MetaNameValue "as_float" "x"]).1 = none := by
  refine ⟨fun attrs s r => rfl, fun attrs s r n => rfl, by decide, by decide,
    fun nm items attrs => rfl, fun nm v attrs => rfl, by decide⟩

end GfxMesh
